import Mathlib

/-!
Verification development for the torc BitTorrent client (github.com/jmatss/torc-go).

The Go sources are shallowly embedded: bytes are `Nat` values (< 256), byte
strings and slices are `List Nat`, Go `int64` is `Int`, Go `uint32`/`int`
arithmetic is `Nat` with explicit truncation where Go would wrap, and
in-place mutation of the `Torrent`/`Tracker`/`Peer` structs is explicit
state passing.  Disk and network I/O are modelled as explicit inputs:
the file store is a list of per-file byte lists, and the HTTP announce
outcome is an `Except` parameter supplied to the embedded function.
-/

namespace Torc

set_option maxRecDepth 100000

/-- Truncation to 32 bits, modelling Go `uint32` arithmetic. -/
def w32 (x : Nat) : Nat := x % 4294967296

/-- Left rotation of a 32-bit word by `s` bits (crypto/sha1 internals). -/
def rotl (s x : Nat) : Nat := (w32 (x <<< s)) ||| (x >>> (32 - s))

/-- Big-endian 8-byte encoding of a natural number (SHA-1 length field). -/
def be64 (n : Nat) : List Nat :=
  [(n >>> 56) % 256, (n >>> 48) % 256, (n >>> 40) % 256, (n >>> 32) % 256,
   (n >>> 24) % 256, (n >>> 16) % 256, (n >>> 8) % 256, n % 256]

/-- Big-endian 4-byte encoding of a 32-bit word. -/
def wordBytes (x : Nat) : List Nat :=
  [(x >>> 24) % 256, (x >>> 16) % 256, (x >>> 8) % 256, x % 256]

/-- SHA-1 padding: append 0x80, zeros, and the 64-bit big-endian bit length. -/
def sha1pad (msg : List Nat) : List Nat :=
  let L := msg.length
  let k := (55 + 64 - (L % 64)) % 64
  msg ++ [128] ++ List.replicate k 0 ++ be64 (8 * L)

/-- Group a byte list into big-endian 32-bit words, four bytes at a time. -/
def toWords : List Nat → List Nat
  | b0 :: b1 :: b2 :: b3 :: rest =>
      (((b0 <<< 24) ||| (b1 <<< 16)) ||| ((b2 <<< 8) ||| b3)) :: toWords rest
  | _ => []

/-- Extend the 16 message-schedule words of a block to 80 words. -/
def sha1Extend (w : Array Nat) (i : Nat) : Nat → Array Nat
  | 0 => w
  | fuel + 1 =>
      let nw := rotl 1 ((w.getD (i - 3) 0) ^^^ (w.getD (i - 8) 0) ^^^
                        (w.getD (i - 14) 0) ^^^ (w.getD (i - 16) 0))
      sha1Extend (w.push nw) (i + 1) fuel

/-- Round function of SHA-1 for round `t`. -/
def sha1F (t b c d : Nat) : Nat :=
  if t < 20 then (b &&& c) ||| ((4294967295 ^^^ b) &&& d)
  else if t < 40 then b ^^^ c ^^^ d
  else if t < 60 then (b &&& c) ||| (b &&& d) ||| (c &&& d)
  else b ^^^ c ^^^ d

/-- Round constant of SHA-1 for round `t`. -/
def sha1K (t : Nat) : Nat :=
  if t < 20 then 1518500249
  else if t < 40 then 1859775393
  else if t < 60 then 2400959708
  else 3395469782

/-- The 80 compression rounds of one SHA-1 block. -/
def sha1Rounds (w : Array Nat) (t : Nat) :
    Nat → Nat × Nat × Nat × Nat × Nat → Nat × Nat × Nat × Nat × Nat
  | 0, s => s
  | fuel + 1, (a, b, c, d, e) =>
      let temp := w32 (rotl 5 a + sha1F t b c d + e + sha1K t + w.getD t 0)
      sha1Rounds w (t + 1) fuel (temp, a, rotl 30 b, c, d)

/-- Process one 64-byte block, updating the five hash words. -/
def sha1Block (chunk : List Nat) (hs : Nat × Nat × Nat × Nat × Nat) :
    Nat × Nat × Nat × Nat × Nat :=
  let w := sha1Extend (Array.mk (toWords chunk)) 16 64
  let (h0, h1, h2, h3, h4) := hs
  let (a, b, c, d, e) := sha1Rounds w 0 80 (h0, h1, h2, h3, h4)
  (w32 (h0 + a), w32 (h1 + b), w32 (h2 + c), w32 (h3 + d), w32 (h4 + e))

/-- Fold `sha1Block` over the padded message, 64 bytes at a time. -/
def sha1Blocks : Nat → List Nat → Nat × Nat × Nat × Nat × Nat →
    Nat × Nat × Nat × Nat × Nat
  | 0, _, hs => hs
  | _ + 1, [], hs => hs
  | fuel + 1, bytes, hs =>
      sha1Blocks fuel (bytes.drop 64) (sha1Block (bytes.take 64) hs)

/-- SHA-1 of a byte list, returned as the 20 digest bytes (crypto/sha1 `Sum`). -/
def sha1 (msg : List Nat) : List Nat :=
  let padded := sha1pad msg
  let (h0, h1, h2, h3, h4) :=
    sha1Blocks padded.length padded
      (1732584193, 4023233417, 2562383102, 271733878, 3285377520)
  wordBytes h0 ++ wordBytes h1 ++ wordBytes h2 ++ wordBytes h3 ++ wordBytes h4

/-- Maximum block size, `MaxRequestLength uint32 = 1 << 14` (torrent.go). -/
def MaxRequestLength : Nat := 16384

/-- Maximum consecutive tracker failures, `MaxRetryCount = 5` (torrenthandler.go). -/
def MaxRetryCount : Nat := 5

/-- An entry of `Info.Files` (torrent.go): start index of the file inside the
whole byte stream, and the file length.  The path components play no role in
any claim and are omitted. -/
structure Files where
  Index : Int
  Length : Int
deriving Repr, DecidableEq

/-- The per-peer record `Peer` (torrent/peer.go, peer/peer.go).  The address is
kept as the derived `HostAndPort` string; the connection handle is I/O and is
omitted.  Defaults are the initial values set by `NewPeer`. -/
structure Peer where
  HostAndPort : String := ""
  RemoteBitField : List Nat := []
  AmChoking : Bool := true
  AmInterested : Bool := false
  PeerChoking : Bool := true
  PeerInterested : Bool := false
deriving Repr, DecidableEq

/-- Mutable tracker state (tracker.go).  The repository holds two drafts of the
struct: the one in src/internal/torrent/tracker.go has the single `BitField`,
while the peer handler (peer/handler.go) uses `BitFieldHave` and
`BitFieldDownloading`; all three appear here so each draft's functions can be
embedded against the fields they actually touch. -/
structure Tracker where
  Uploaded : Int := 0
  Downloaded : Int := 0
  Left : Int := 0
  BitField : List Nat := []
  BitFieldHave : List Nat := []
  BitFieldDownloading : List Nat := []
  Started : Bool := false
  Completed : Bool := false
  Interval : Int := 0
  Seeders : Int := 0
  Leechers : Int := 0
  Peers : List Peer := []
deriving Repr, DecidableEq

/-- The torrent descriptor.  peer/handler.go reads `tor.Pieces` and
`t.PieceLength` directly on the torrent value (torrent.go nests them inside
`Info`; the flattening changes nothing observable), so they live here as
direct fields.  `Pieces` is the byte string of concatenated 20-byte SHA-1
digests. -/
structure Torrent where
  PieceLength : Int := 0
  Pieces : List Nat := []
  Files : List Files := []
  Tracker : Tracker := {}
deriving Repr, DecidableEq

/-- Big-endian 32-bit read, `binary.BigEndian.Uint32` on a 4-byte slice. -/
def beUint32 (l : List Nat) : Nat :=
  (((l.getD 0 0) <<< 24) ||| ((l.getD 1 0) <<< 16)) |||
  (((l.getD 2 0) <<< 8) ||| l.getD 3 0)

/-- IsCorrectPiece (torrent.go:254-265): hashes the WHOLE received
`pieceData` — including the 4-byte index and 4-byte begin header — and
compares against `Pieces[pieceIndex*20 : pieceIndex*20+20]`.  Go string
slicing out of range panics; the total `take`/`drop` here agrees with Go on
every in-range input. -/
def Torrent.IsCorrectPiece (t : Torrent) (pieceData : List Nat) : Bool :=
  let pieceIndex := beUint32 (pieceData.take 4)
  let receivedHash := sha1 pieceData
  let realHash := (t.Pieces.drop (pieceIndex * 20)).take 20
  receivedHash == realHash

/-- Length of the remote bitfield allocated by the peer handler
(peer/handler.go:51): `((len(tor.Pieces) / sha1.Size) / 8) + 1`. -/
def remoteBitFieldLength (t : Torrent) : Nat :=
  t.Pieces.length / 20 / 8 + 1

/-- The zeroed RemoteBitField the peer handler allocates (peer/handler.go:52). -/
def mkRemoteBitField (t : Torrent) : List Nat :=
  List.replicate (remoteBitFieldLength t) 0

/-- Length of the bitfield allocated by tracker construction
(tracker.go:84): `((len(torrent.Info.Files) - 1) / 8) + 1`.  For an empty
files list Go computes (-1)/8 = 0 (truncated division), so the natural-number
subtraction below agrees with Go for every length. -/
def newTrackerBitFieldLength (files : List Files) : Nat :=
  (files.length - 1) / 8 + 1

/-- Tracker construction `newTracker` (tracker.go:59-93): Left is the sum of
the file lengths, the bitfield is zero-allocated from the FILE count, every
other field starts at its zero value.  (Reading the torrent file and hashing
the info dictionary are I/O and do not touch the fields below.) -/
def newTracker (files : List Files) : Tracker :=
  { Left := (files.map (fun f => f.Length)).sum,
    BitField := List.replicate (newTrackerBitFieldLength files) 0 }

/-- Outcome of the HAVE branch of the peer handler read loop. -/
inductive HaveOutcome where
  | totalFailure
  | panic
  | updated (remoteBitField : List Nat)
deriving Repr, DecidableEq

/-- The `bt.Have` case of the peer handler (peer/handler.go:130-148):
`byteShift := pieceIndex / 8`, `bitShift := 8 - (pieceIndex % 8)`; if
`int(byteShift) > len(RemoteBitField)` send TotalFailure and return, else
`RemoteBitField[byteShift] |= 1 << bitShift` (a byte shift, so the OR-ed value
is `(1 <<< bitShift) % 256`).  When `byteShift` equals the length the Go
bounds check passes and the index expression panics; that case is the
`panic` outcome. -/
def handleHave (remoteBitField : List Nat) (pieceIndex : Nat) : HaveOutcome :=
  let byteShift := pieceIndex / 8
  let bitShift := 8 - pieceIndex % 8
  if byteShift > remoteBitField.length then .totalFailure
  else if byteShift == remoteBitField.length then .panic
  else .updated (remoteBitField.set byteShift
    ((remoteBitField.getD byteShift 0) ||| ((1 <<< bitShift) % 256)))

/-- Loop body of findFreePieceIndex (peer/handler.go:309-326), iterating the
piece index `i`; `fuel` is the number of remaining iterations (the Go loop
runs `i` from 0 to `amountOfPieces - 1`). -/
def findFreePieceLoop (t : Torrent) (p : Peer) : Nat → Nat → Option (Nat × Torrent)
  | _, 0 => none
  | i, fuel + 1 =>
    let byteIndex := i / 8
    let bitIndex := i % 8
    let localAvailable :=
      (t.Tracker.BitFieldDownloading.getD byteIndex 0) &&& (1 <<< (7 - bitIndex))
    let remoteAvailable :=
      (p.RemoteBitField.getD byteIndex 0) &&& (1 <<< (7 - bitIndex))
    if localAvailable == 0 && remoteAvailable == 1 then
      let newByte := (t.Tracker.BitFieldDownloading.getD byteIndex 0) ||| (1 <<< (7 - bitIndex))
      let newDownloading := t.Tracker.BitFieldDownloading.set byteIndex newByte
      some (i, { t with Tracker := { t.Tracker with BitFieldDownloading := newDownloading } })
    else
      findFreePieceLoop t p (i + 1) fuel

/-- findFreePieceIndex (peer/handler.go:301-329): scan the pieces in order
and claim the first one whose condition holds, updating BitFieldDownloading;
`none` models the `unable to find a free piece for this peer` error return. -/
def findFreePieceIndex (t : Torrent) (p : Peer) : Option (Nat × Torrent) :=
  findFreePieceLoop t p 0 (t.Pieces.length / 20)

/-- Go conversion `uint32(x)` of a signed 64-bit value: the low 32 bits. -/
def u32ofInt (x : Int) : Nat := (x.emod 4294967296).toNat

/-- The per-file write loop of WriteData (torrent.go:123-171).  The on-disk
files are the `store` list (one byte list per `Files` entry, in the same
order); opening a path always succeeds in the model.  A file whose start
index lies beyond `requestIndex` is skipped (`continue`); otherwise the slice
`data[off : off+amountToWrite]` is written at `seekPos`.  A negative seek
position is the Go `Seek` error return, and slice bounds outside `data` are
the Go slice panic; both surface as `.error`. -/
def writeFiles : List Files → List (List Nat) → Int → List Nat → Int →
    Except String (List (List Nat))
  | [], store, _, _, _ => .ok store
  | f :: fs, store, requestIndex, data, off =>
    let content := store.headD []
    let rest := store.drop 1
    if requestIndex < f.Index then
      match writeFiles fs rest requestIndex data off with
      | .ok rest2 => .ok (content :: rest2)
      | .error e => .error e
    else
      let seekPos := requestIndex - f.Index
      if seekPos < 0 then .error "unable to seek in file"
      else
        let amountToWrite0 := f.Length - seekPos
        let amountToWrite :=
          if amountToWrite0 > (data.length : Int) then (data.length : Int) else amountToWrite0
        if amountToWrite < 0 ∨ off < 0 ∨ off + amountToWrite > (data.length : Int) then
          .error "panic: slice bounds out of range"
        else
          let slice := (data.drop off.toNat).take amountToWrite.toNat
          let content2 :=
            content.take seekPos.toNat ++ slice ++ content.drop (seekPos.toNat + slice.length)
          let off2 := off + amountToWrite
          if off2 ≥ (data.length : Int) then
            .ok (content2 :: rest)
          else
            match writeFiles fs rest requestIndex data off2 with
            | .ok rest2 => .ok (content2 :: rest2)
            | .error e => .error e

/-- WriteData (torrent.go:98-177).  Takes the data part of a PIECE message
(4-byte index, 4-byte begin, block bytes); after validation it writes the
block into the files and THEN unconditionally adds the block length to
`Downloaded` and subtracts it from `Left`.  Returns the new torrent, the new
store and the byte count, or the error. -/
def Torrent.WriteData (t : Torrent) (store : List (List Nat)) (pieceData : List Nat) :
    Except String (Torrent × List (List Nat) × Nat) :=
  let pieceIndex := beUint32 (pieceData.take 4)
  let begin := beUint32 ((pieceData.drop 4).take 4)
  let data := pieceData.drop 8
  if pieceIndex ≥ t.Pieces.length / 20 then
    .error "piece index is incorrect"
  else if begin ≥ u32ofInt t.PieceLength then
    .error "begin is incorrect"
  else if data.length > MaxRequestLength then
    .error "length is over MaxRequestLength"
  else
    let requestIndex := (pieceIndex : Int) * t.PieceLength + (begin : Int)
    match writeFiles t.Files store requestIndex data 0 with
    | .error e => .error e
    | .ok store2 =>
      let tr2 := { t.Tracker with
        Downloaded := t.Tracker.Downloaded + (data.length : Int),
        Left := t.Tracker.Left - (data.length : Int) }
      .ok ({ t with Tracker := tr2 }, store2, data.length)

/-- Message identifiers of the peer wire protocol (torrent/peer.go). -/
inductive MessageId where
  | keepAlive | choke | unChoke | interested | notInterested
  | have | bitfield | request | piece | cancel
deriving Repr, DecidableEq

/-- A record forwarded over the internal channels of the peer handler
(peer/handler.go `remoteDTO`). -/
structure RemoteDTO where
  Id : MessageId := .keepAlive
  Data : List Nat := []
  Err : Option String := none
deriving Repr, DecidableEq

/-- Result of one downloadPiece call. -/
inductive DownloadOutcome where
  | ok (pieceIndex : Nat)
  | err (msg : String)
  | blocked
deriving Repr, DecidableEq

/-- The deferred bitfield update of downloadPiece (peer/handler.go:236-247):
on a non-nil `err` clear the piece's BitFieldDownloading bit, else set its
BitFieldHave bit.  `outerErr` is the value of the `err` variable bound at the
findFreePieceIndex call line — the only `err` the deferred closure can see. -/
def downloadDefer (outerErr : Option String) (pieceIndex : Nat) (t : Torrent) : Torrent :=
  let byteIndex := pieceIndex / 8
  let bitIndex := pieceIndex % 8
  match outerErr with
  | some _ =>
    let b := (t.Tracker.BitFieldDownloading.getD byteIndex 0) &&& (255 ^^^ (1 <<< (7 - bitIndex)))
    let bf := t.Tracker.BitFieldDownloading.set byteIndex b
    { t with Tracker := { t.Tracker with BitFieldDownloading := bf } }
  | none =>
    let b := (t.Tracker.BitFieldHave.getD byteIndex 0) ||| (1 <<< (7 - bitIndex))
    let bf := t.Tracker.BitFieldHave.set byteIndex b
    { t with Tracker := { t.Tracker with BitFieldHave := bf } }

/-- Result of the inner wait loop of downloadPiece. -/
inductive AwaitResult where
  | gotPiece (data : List Nat) (rest : List RemoteDTO) (p : Peer)
  | failed (msg : String) (rest : List RemoteDTO) (p : Peer)
  | blocked
deriving Repr, DecidableEq

/-- The inner wait loop of downloadPiece (peer/handler.go:262-281).  The
handler main loop flips `PeerChoking` when it forwards a Choke/UnChoke DTO,
so in this sequential model the flag effect of a DTO is applied when the
downloader consumes it; the choking test itself uses the flag state before
the receive, exactly as the Go code reads `p.PeerChoking` before blocking on
the channel.  An empty message list means the Go code would block forever on
the channel (`blocked`). -/
def awaitPiece : Peer → List RemoteDTO → AwaitResult
  | _, [] => .blocked
  | p, m :: rest =>
    let p2 :=
      if m.Id = .choke then { p with PeerChoking := true }
      else if m.Id = .unChoke then { p with PeerChoking := false }
      else p
    if p.PeerChoking then
      match m.Err with
      | some e => .failed e rest p2
      | none => awaitPiece p2 rest
    else
      match m.Err with
      | some e => .failed e rest p2
      | none => if m.Id = .piece then .gotPiece m.Data rest p2 else awaitPiece p2 rest

/-- The block loop of downloadPiece (peer/handler.go:252-294), one recursive
step per `begin` value.  Every exit path below runs the deferred update with
`outerErr = none`: the `err` returned by WriteData is redeclared with `:=`
inside the loop body and shadows the outer `err`, and the other error paths
return without assigning it, so the deferred closure always sees nil there.
`fuel` bounds the number of outer iterations (each adds `requestLength ≥ 1`
to `begin`); the callers pass enough for the loop to hit its exit condition. -/
def downloadLoop (pieceIndex : Nat) (pieceLength : Int) :
    Nat → Torrent → Peer → List (List Nat) → List RemoteDTO → Nat →
    DownloadOutcome × Torrent × Peer × List (List Nat)
  | 0, t, p, store, _, _ => (.blocked, t, p, store)
  | fuel + 1, t, p, store, msgs, begin =>
    if (begin : Int) < pieceLength then
      let requestLength : Nat :=
        if ((begin : Int) + (MaxRequestLength : Int)) > pieceLength
        then (u32ofInt pieceLength + 4294967296 - begin) % 4294967296
        else MaxRequestLength
      match awaitPiece p msgs with
      | .blocked => (.blocked, t, p, store)
      | .failed e rest p2 =>
          let _ := rest
          (.err e, downloadDefer none pieceIndex t, p2, store)
      | .gotPiece data rest p2 =>
          if ¬ t.IsCorrectPiece data then
            (.err "the received piece sha1 hash is incorrect",
              downloadDefer none pieceIndex t, p2, store)
          else
            match t.WriteData store data with
            | .error e =>
                (.err ("unable to write to file: " ++ e),
                  downloadDefer none pieceIndex t, p2, store)
            | .ok (t2, store2, _) =>
                downloadLoop pieceIndex pieceLength fuel t2 p2 store2 rest
                  (begin + requestLength)
    else
      (.ok pieceIndex, downloadDefer none pieceIndex t, p, store)

/-- downloadPiece (peer/handler.go:216-297).  Claims a piece, computes the
piece length (the LAST piece uses `t.Tracker.Left`), registers the deferred
bitfield update, then downloads block by block, verifying each received
PIECE message with IsCorrectPiece and writing it with WriteData.  When the
claim itself fails the function returns before the defer is registered and
the state is untouched. -/
def downloadPiece (t : Torrent) (p : Peer) (store : List (List Nat))
    (msgs : List RemoteDTO) : DownloadOutcome × Torrent × Peer × List (List Nat) :=
  match findFreePieceIndex t p with
  | none => (.err "unable to find a free piece for this peer", t, p, store)
  | some (pieceIndex, t1) =>
    let amountOfPieces := t1.Pieces.length / 20
    let pieceLength := if pieceIndex == amountOfPieces - 1 then t1.Tracker.Left else t1.PieceLength
    downloadLoop pieceIndex pieceLength (pieceLength.toNat + 1) t1 p store msgs 0

/-- Tracker announce events (tracker.go:20-28). -/
inductive EventId where
  | interval | started | stopped | completed
deriving Repr, DecidableEq

/-- The fields of a successful announce response that TrackerRequest copies
into the tracker state: the bencode-unmarshalled `interval`, `complete`,
`incomplete`, and the peers parsed by getPeers. -/
structure TrackerResponse where
  Interval : Int := 0
  Seeders : Int := 0
  Leechers : Int := 0
  Peers : List Peer := []
deriving Repr, DecidableEq

/-- TrackerRequest (tracker.go:117-194).  The event flags are set while the
query parameters are assembled, BEFORE any network activity; `resp` is the
combined outcome of the HTTP round trip and response parsing (an HTTP error,
a `failure reason` response and a malformed body are all `.error`).  On
success the response fields are unmarshalled into the tracker and the peer
list is REPLACED by the parsed peers (`t.Tracker.Peers = peers`).  The Go
method mutates the tracker in place and returns only an error, so the model
returns the mutated tracker together with the optional error. -/
def TrackerRequest (t : Tracker) (event : EventId)
    (resp : Except String TrackerResponse) : Tracker × Option String :=
  let t1 :=
    match event with
    | .interval => t
    | .started => { t with Started := true }
    | .stopped => t
    | .completed => { t with Completed := true }
  match resp with
  | .error e => (t1, some ("unable to connect: " ++ e))
  | .ok r =>
      ({ t1 with Interval := r.Interval, Seeders := r.Seeders,
                 Leechers := r.Leechers, Peers := r.Peers }, none)

/-- Request (tracker.go:97-105): refuse if the torrent is completed, issue a
`started` announce if not yet started, and a plain `interval` announce
otherwise. -/
def Request (t : Tracker) (resp : Except String TrackerResponse) :
    Tracker × Option String :=
  if t.Completed then
    (t, some "this torrent has already finished downloading")
  else if !t.Started then
    TrackerRequest t .started resp
  else
    TrackerRequest t .interval resp

/-- The interval-timer arm of the torrent handler loop
(torrent/torrenthandler.go:121-142): given the retry counter and the list of
successive announce outcomes (`true` = success), `true` means the handler
eventually sends TotalFailure and exits.  On success the counter resets to 0;
on failure it increments and the handler exits when it reaches MaxRetryCount. -/
def retryRunFrom : Nat → List Bool → Bool
  | _, [] => false
  | retryCount, outcome :: rest =>
    if outcome then retryRunFrom 0 rest
    else if retryCount + 1 ≥ MaxRetryCount then true
    else retryRunFrom (retryCount + 1) rest

/-! Concrete instances used by the claim theorems. -/

/-- Payload of a 16-byte piece: the bytes 0..15. -/
def pieceBytes : List Nat := List.range 16

/-- A full PIECE message data field for piece 0 at begin 0: the 8-byte
`index .. begin` header followed by the 16 payload bytes. -/
def pieceMsg : List Nat := List.replicate 8 0 ++ pieceBytes

/-- Single-piece torrent whose piece table holds the spec-correct digest:
SHA-1 of the payload bytes only. -/
def torGood : Torrent :=
  { PieceLength := 16, Pieces := sha1 pieceBytes }

/-- Single-piece torrent whose piece table holds the digest of the full
message, header included. -/
def torBad : Torrent :=
  { PieceLength := 16, Pieces := sha1 pieceMsg }

/-- A single-piece torrent with nothing downloaded or downloading. -/
def torOne : Torrent :=
  { PieceLength := 16, Pieces := List.replicate 20 0,
    Tracker := { BitFieldHave := [0], BitFieldDownloading := [0] } }

/-- Torrent with 8 pieces of 16 bytes; only the last piece (index 7) is
missing, so `Left = 16`, and the piece table is all zeros (matching no
SHA-1 digest). -/
def tor3 : Torrent :=
  { PieceLength := 16, Pieces := List.replicate 160 0,
    Files := [{ Index := 0, Length := 128 }],
    Tracker := { Left := 16, BitFieldHave := [0], BitFieldDownloading := [0] } }

/-- A peer advertising (through the buggy mask arithmetic) piece 7 of tor3. -/
def peer3 : Peer := { RemoteBitField := [1] }

/-- On-disk content of tor3's single 128-byte file. -/
def store3 : List (List Nat) := [List.replicate 128 0]

/-- Messages the downloader consumes for tor3: an UNCHOKE, then a PIECE
message for piece 7 whose content does not match the piece table. -/
def msgs3 : List RemoteDTO :=
  [{ Id := .unChoke }, { Id := .piece, Data := [0, 0, 0, 7, 0, 0, 0, 0] ++ pieceBytes }]

/-- Torrent with 8 pieces (160 bytes of piece digests). -/
def tor8 : Torrent := { PieceLength := 16, Pieces := List.replicate 160 0 }

/-- Torrent with 16 pieces and a single 256-byte file. -/
def tor16 : Torrent :=
  { PieceLength := 16, Pieces := List.replicate 320 0,
    Files := [{ Index := 0, Length := 256 }] }

/-- Single-piece 16-byte torrent over one 20-byte file, nothing downloaded. -/
def tor6 : Torrent :=
  { PieceLength := 16, Pieces := List.replicate 20 0,
    Files := [{ Index := 0, Length := 20 }],
    Tracker := { Left := 20 } }

/-- On-disk content of tor6's file. -/
def store6 : List (List Nat) := [List.replicate 20 0]

/-- A PIECE message carrying a single 4-byte block of piece 0 (a strict
sub-piece: the piece is 16 bytes long). -/
def block6 : List Nat := [0, 0, 0, 0, 0, 0, 0, 0] ++ [9, 9, 9, 9]

/-- A peer known before the announce. -/
def peerA : Peer := { HostAndPort := "10.0.0.1:6881" }

/-- A different peer returned by the announce. -/
def peerB : Peer := { HostAndPort := "10.0.0.2:6881" }

/-- Tracker state holding peerA (e.g. with a live connection). -/
def trA : Tracker := { Started := true, Peers := [peerA] }

/-- A successful announce response mentioning only peerB. -/
def respB : TrackerResponse := { Interval := 10, Peers := [peerB] }

/-! Claim theorems. -/

/-- C1.  The claim states that a downloaded piece is accepted iff the SHA-1
of its payload bytes — excluding the 8-byte index/begin header — equals the
piece table entry, decided over the fully assembled piece.  The code instead
hashes the whole PIECE message, header included (and `downloadPiece` applies
it to every received block): the spec-correct piece table `torGood` REJECTS
the correct message, while a table holding the hash of header-plus-payload
accepts it. -/
theorem isCorrectPiece_hashes_header :
    torGood.IsCorrectPiece pieceMsg = false ∧ torBad.IsCorrectPiece pieceMsg = true := by
  decide

/-- C2.  In `findFreePieceIndex` the remote-bitfield test compares the masked
byte against the value 1 (`remoteAvailable == 1`), so the mask value
`1 <<< (7 - bitIndex)` can match only when `bitIndex = 7`.  Consequently a
single-piece torrent can never be claimed, whatever the remote bitfield byte
is — in particular not with 0x80 (= remote has piece 0), where the claim
requires piece 0 to be claimed. -/
theorem findFreePieceIndex_single_piece_never (b : Nat) :
    findFreePieceIndex torOne { RemoteBitField := [b] } = none := by
  have hb : (b &&& 128) ≠ 1 := by
    intro h
    have h0 := congrArg (fun n => Nat.testBit n 0) h
    simp [Nat.testBit_and] at h0
  simp [findFreePieceIndex, torOne, findFreePieceLoop, hb]

/-- C3.  The claim states that on a hash-check failure the downloader clears
`downloading_bitfield[p]` and does not set `have_bitfield[p]`.  Because the
`err` checked by the deferred update is the outer variable (shadowed inside
the loop), the code does the opposite: after a hash mismatch on piece 7 the
have-bit is SET and the downloading-bit stays set. -/
theorem downloadPiece_hash_mismatch_sets_have :
    (downloadPiece tor3 peer3 store3 msgs3).1 =
      .err "the received piece sha1 hash is incorrect" ∧
    (downloadPiece tor3 peer3 store3 msgs3).2.1.Tracker.BitFieldHave = [1] ∧
    (downloadPiece tor3 peer3 store3 msgs3).2.1.Tracker.BitFieldDownloading = [1] := by
  refine ⟨by rfl, by rfl, by rfl⟩

/-- C4 counterexample.  The claim says both bitfields have length exactly
ceil(piece_count / 8).  For 8 pieces the peer handler allocates
floor(8/8)+1 = 2 bytes, not ceil(8/8) = 1; and for 16 pieces over one file
the tracker allocates ceil(file_count/8) = 1 byte, not ceil(16/8) = 2. -/
theorem bitfield_length_counterexample :
    (mkRemoteBitField tor8).length ≠ (tor8.Pieces.length / 20 + 7) / 8 ∧
    (newTracker tor16.Files).BitField.length ≠ (tor16.Pieces.length / 20 + 7) / 8 := by
  decide

/-- C4 amended.  The remote bitfield allocated by the peer handler has length
floor(piece_count / 8) + 1, and the (single) bitfield allocated at tracker
construction has length ceil(file_count / 8) — it is sized from the number of
files, not the number of pieces. -/
theorem bitfield_lengths_amended (t : Torrent) (files : List Files)
    (h : files ≠ []) :
    (mkRemoteBitField t).length = t.Pieces.length / 20 / 8 + 1 ∧
    (newTracker files).BitField.length = (files.length + 7) / 8 := by
  constructor
  · simp [mkRemoteBitField, remoteBitFieldLength]
  · simp only [newTracker, newTrackerBitFieldLength, List.length_replicate]
    have hlen : 1 ≤ files.length := by
      cases files with
      | nil => exact absurd rfl h
      | cons a l => simp
    omega

/-- C4 amended, witness at tor8 and a one-file list. -/
theorem bitfield_lengths_amended_witness :
    ([({ Index := 0, Length := 256 } : Files)] ≠ []) ∧
    ((mkRemoteBitField tor8).length = tor8.Pieces.length / 20 / 8 + 1 ∧
     (newTracker [({ Index := 0, Length := 256 } : Files)]).BitField.length =
       ([({ Index := 0, Length := 256 } : Files)].length + 7) / 8) :=
  ⟨by decide, bitfield_lengths_amended tor8 [{ Index := 0, Length := 256 }] (by decide)⟩

/-- C5.  The claim says HAVE(i) sets exactly bit (7 - i mod 8) of byte
(i div 8) and rejects i = piece_count with TotalFailure.  The code computes
`bitShift = 8 - i mod 8` and bounds-checks with `>` instead of `>=`:
HAVE(0) sets no bit at all (byte shift by 8 is zero), HAVE(1) sets bit 7
instead of bit 6, and for an 8-piece torrent (2-byte remote bitfield)
HAVE(8) is accepted silently and changes nothing instead of failing. -/
theorem handleHave_wrong_bit_and_bounds :
    handleHave [0, 0] 0 = .updated [0, 0] ∧
    handleHave [0, 0] 1 = .updated [128, 0] ∧
    handleHave [0, 0] 8 = .updated [0, 0] := by
  decide

/-- C6 counterexample.  The claim says writing a single block of a piece
leaves `downloaded` and `left` unchanged.  Writing one 4-byte block of
tor6's 16-byte piece succeeds and moves Downloaded from 0 to 4 and Left
from 20 to 16. -/
theorem writeData_single_block_changes_counters :
    tor6.WriteData store6 block6 =
      .ok ({ tor6 with Tracker := { tor6.Tracker with Downloaded := 4, Left := 16 } },
           [[9, 9, 9, 9] ++ List.replicate 16 0], 4) ∧
    tor6.Tracker.Downloaded = 0 ∧ tor6.Tracker.Left = 20 := by
  refine ⟨by rfl, by decide, by decide⟩

/-- C6 amended.  `downloaded` and `left` are updated by every successful
WriteData call — that is, once per block written, by that block's byte
count — not once per verified piece.  (The update still happens inside the
tracker mutex, which the sequential model does not represent.) -/
theorem writeData_counter_update (t : Torrent) (store : List (List Nat))
    (pieceData : List Nat) (t2 : Torrent) (store2 : List (List Nat)) (n : Nat)
    (h : t.WriteData store pieceData = .ok (t2, store2, n)) :
    t2.Tracker.Downloaded = t.Tracker.Downloaded + ((pieceData.drop 8).length : Int) ∧
    t2.Tracker.Left = t.Tracker.Left - ((pieceData.drop 8).length : Int) ∧
    n = (pieceData.drop 8).length := by
  unfold Torrent.WriteData at h
  dsimp only at h
  split at h
  · cases h
  · split at h
    · cases h
    · split at h
      · cases h
      · split at h
        · cases h
        · simp only [Except.ok.injEq, Prod.mk.injEq] at h
          obtain ⟨ht, _, hn⟩ := h
          subst ht hn
          simp

/-- C6 amended, witness at the concrete block write of tor6. -/
theorem writeData_counter_update_witness :
    (tor6.WriteData store6 block6 =
      .ok ({ tor6 with Tracker := { tor6.Tracker with Downloaded := 4, Left := 16 } },
           [[9, 9, 9, 9] ++ List.replicate 16 0], 4)) ∧
    (({ tor6 with Tracker := { tor6.Tracker with Downloaded := 4, Left := 16 }} :
        Torrent).Tracker.Downloaded =
      tor6.Tracker.Downloaded + ((block6.drop 8).length : Int) ∧
     ({ tor6 with Tracker := { tor6.Tracker with Downloaded := 4, Left := 16 }} :
        Torrent).Tracker.Left =
      tor6.Tracker.Left - ((block6.drop 8).length : Int) ∧
     4 = (block6.drop 8).length) :=
  ⟨by rfl,
   writeData_counter_update tor6 store6 block6
     { tor6 with Tracker := { tor6.Tracker with Downloaded := 4, Left := 16 } }
     [[9, 9, 9, 9] ++ List.replicate 16 0] 4 (by rfl)⟩

/-- C7 counterexample.  The claim says peers present before a successful
announce are still present after it.  A successful announce with a response
naming only peerB leaves the peer list as exactly [peerB]: peerA is gone. -/
theorem trackerRequest_drops_existing_peer :
    trA.Peers = [peerA] ∧
    (TrackerRequest trA .interval (.ok respB)).1.Peers = [peerB] ∧
    peerA ∉ (TrackerRequest trA .interval (.ok respB)).1.Peers := by
  decide

/-- C7 amended.  A successful announce REPLACES the tracker-state peer list
with exactly the peers parsed from the response; entries present before are
kept only if the response names them again. -/
theorem trackerRequest_replaces_peers (t : Tracker) (event : EventId)
    (r : TrackerResponse) :
    (TrackerRequest t event (.ok r)).1.Peers = r.Peers := by
  cases event <;> rfl

/-- C8.  In the periodic-announce loop a success resets the retry counter and
a failure increments it, and the handler emits TotalFailure and exits exactly
when the counter reaches MaxRetryCount = 5: starting from counter 0, the run
exits iff the outcome sequence contains 5 consecutive failures. -/
theorem torrentHandler_exit_iff_five_consecutive_failures (outs : List Bool) :
    retryRunFrom 0 outs = true ↔
      ∃ l1 l2, outs = l1 ++ List.replicate MaxRetryCount false ++ l2 := by
  have main : ∀ (outs : List Bool) (rc : Nat), rc < 5 →
      (retryRunFrom rc outs = true ↔
        (∃ l2, outs = List.replicate (5 - rc) false ++ l2) ∨
        (∃ l1 l2, outs = l1 ++ List.replicate 5 false ++ l2)) := by
    intro outs
    induction outs with
    | nil =>
      intro rc hrc
      simp only [retryRunFrom]
      constructor
      · intro hfalse; cases hfalse
      · rintro (⟨l2, hl⟩ | ⟨l1, l2, hl⟩)
        · have := congrArg List.length hl
          simp at this
          omega
        · have := congrArg List.length hl
          simp at this
          omega
    | cons b rest ih =>
      intro rc hrc
      cases b with
      | true =>
        have step : retryRunFrom rc (true :: rest) = retryRunFrom 0 rest := by
          simp [retryRunFrom]
        rw [step, ih 0 (by omega)]
        constructor
        · rintro (⟨l2, hl⟩ | ⟨l1, l2, hl⟩)
          · exact Or.inr ⟨[true], l2, by simp [hl]⟩
          · exact Or.inr ⟨true :: l1, l2, by simp [hl]⟩
        · rintro (⟨l2, hl⟩ | ⟨l1, l2, hl⟩)
          · have h57 : 5 - rc = (5 - rc - 1) + 1 := by omega
            rw [h57, List.replicate_succ] at hl
            simp at hl
          · cases l1 with
            | nil =>
              rw [List.nil_append, show (5 : Nat) = 4 + 1 from rfl, List.replicate_succ] at hl
              simp at hl
            | cons x l1 =>
              simp only [List.cons_append, List.cons.injEq] at hl
              exact Or.inr ⟨l1, l2, hl.2⟩
      | false =>
        by_cases h4 : rc + 1 ≥ 5
        · have hrc4 : rc = 4 := by omega
          subst hrc4
          have step : retryRunFrom 4 (false :: rest) = true := by
            simp [retryRunFrom, MaxRetryCount]
          rw [step]
          constructor
          · intro _
            exact Or.inl ⟨rest, by simp [List.replicate_succ]⟩
          · intro _; rfl
        · have step : retryRunFrom rc (false :: rest) = retryRunFrom (rc + 1) rest := by
            simp only [retryRunFrom, MaxRetryCount, Bool.false_eq_true, if_false]
            rw [if_neg h4]
          rw [step, ih (rc + 1) (by omega)]
          constructor
          · rintro (⟨l2, hl⟩ | ⟨l1, l2, hl⟩)
            · refine Or.inl ⟨l2, ?_⟩
              have h55 : 5 - rc = (5 - (rc + 1)) + 1 := by omega
              simp [h55, List.replicate_succ, hl]
            · exact Or.inr ⟨false :: l1, l2, by simp [hl]⟩
          · rintro (⟨l2, hl⟩ | ⟨l1, l2, hl⟩)
            · have h55 : 5 - rc = (5 - (rc + 1)) + 1 := by omega
              rw [h55, List.replicate_succ, List.cons_append] at hl
              injection hl with h1 h2
              exact Or.inl ⟨l2, h2⟩
            · cases l1 with
              | nil =>
                rw [List.nil_append, show (5 : Nat) = 4 + 1 from rfl, List.replicate_succ,
                    List.cons_append] at hl
                injection hl with h1 h2
                refine Or.inl ⟨List.replicate rc false ++ l2, ?_⟩
                rw [h2, show 5 - (rc + 1) = 4 - rc by omega, ← List.append_assoc,
                    ← List.replicate_add, show (4 - rc) + rc = 4 by omega]
              | cons x l1 =>
                simp only [List.cons_append, List.cons.injEq] at hl
                exact Or.inr ⟨l1, l2, hl.2⟩
  rw [main outs 0 (by omega)]
  constructor
  · rintro (⟨l2, hl⟩ | ⟨l1, l2, hl⟩)
    · exact ⟨[], l2, by simpa [MaxRetryCount] using hl⟩
    · exact ⟨l1, l2, by simpa [MaxRetryCount] using hl⟩
  · rintro ⟨l1, l2, hl⟩
    exact Or.inr ⟨l1, l2, by simpa [MaxRetryCount] using hl⟩

/-- C9.  TrackerRequest sets Started (and, for a completed event, Completed)
before the HTTP announce is attempted, so a failed started announce leaves
Started = true; the next Request call on the resulting state therefore issues
a plain interval announce instead of retrying the started event. -/
theorem tracker_started_persists_on_failure (t : Tracker) (e : String)
    (resp : Except String TrackerResponse) (hC : t.Completed = false) :
    (TrackerRequest t .started (.error e)).1.Started = true ∧
    ((TrackerRequest t .started (.error e)).2).isSome = true ∧
    Request (TrackerRequest t .started (.error e)).1 resp =
      TrackerRequest (TrackerRequest t .started (.error e)).1 .interval resp ∧
    (TrackerRequest t .completed (.error e)).1.Completed = true := by
  refine ⟨rfl, rfl, ?_, rfl⟩
  simp [Request, TrackerRequest, hC]

/-- C9 witness at the empty tracker state. -/
theorem tracker_started_persists_on_failure_witness :
    (({} : Tracker).Completed = false) ∧
    ((TrackerRequest {} .started (.error "http 500")).1.Started = true ∧
     ((TrackerRequest {} .started (.error "http 500")).2).isSome = true ∧
     Request (TrackerRequest {} .started (.error "http 500")).1 (.ok {}) =
       TrackerRequest (TrackerRequest {} .started (.error "http 500")).1 .interval (.ok {}) ∧
     (TrackerRequest {} .completed (.error "http 500")).1.Completed = true) :=
  ⟨rfl, tracker_started_persists_on_failure {} "http 500" (.ok {}) rfl⟩

/-- C10.  Once Completed is true every Request call returns the error
`this torrent has already finished downloading` with the tracker state
untouched and without any announce being issued (the response parameter is
irrelevant). -/
theorem request_refused_after_completed (t : Tracker)
    (resp : Except String TrackerResponse) (h : t.Completed = true) :
    Request t resp = (t, some "this torrent has already finished downloading") := by
  simp [Request, h]

/-- C10 witness at a completed tracker state. -/
theorem request_refused_after_completed_witness :
    (({ Completed := true } : Tracker).Completed = true) ∧
    Request { Completed := true } (.ok {}) =
      ({ Completed := true }, some "this torrent has already finished downloading") :=
  ⟨rfl, request_refused_after_completed { Completed := true } (.ok {}) rfl⟩

end Torc
